import Mathlib

/-!
Shallow embedding of `src/bot.py` (delivery-bot): manifest parser,
employee directory, per-requester delivery session, interview state
machine and route optimizer.  Python dicts for manifest entries are
embedded as a structure with optional `floor`/`room` fields (absent keys),
the employee database as an association list with Python-dict get/put
semantics, and the regex of `parse_delivery` as an executable matcher for
that one pattern.

Unicode notes: Python's `str.strip`/`\s` accept all Unicode whitespace and
`\d`/`str.isdigit` all Unicode decimal digits; the embedding models the
ASCII subset (space, tab, CR, LF; digits 0-9), which is what every input
in the theorems below uses.  `str.lower`/`str.capitalize` are modelled
with `Char.toLower`/`Char.toUpper` (ASCII case mapping); both sides of
every comparison in the development go through the same function, so no
claim decided here depends on non-ASCII case folding.  Python's `int`
also allows `_` digit grouping, not modelled.
-/

namespace DeliveryBot

/-- Model of the regex class `\s` and of the whitespace stripped by `str.strip`. -/
def isSpaceChar (c : Char) : Bool :=
  c.isWhitespace

/-- Python `str.strip` on an explicit character list. -/
def stripChars (cs : List Char) : List Char :=
  ((cs.dropWhile isSpaceChar).reverse.dropWhile isSpaceChar).reverse

/-- Python `str.strip` (`text.strip()` in the source). -/
def pyStrip (s : String) : String :=
  String.mk (stripChars s.data)

/-- Python `str.lower` (ASCII case mapping; see header note). -/
def pyLower (s : String) : String :=
  String.mk (s.data.map Char.toLower)

/-- Python `str.capitalize`: first character upper-cased, the rest lower-cased. -/
def pyCapitalize (s : String) : String :=
  match s.data with
  | [] => ""
  | c :: rest => String.mk (c.toUpper :: rest.map Char.toLower)

/-- Python `str.isdigit`: non-empty and all characters decimal digits. -/
def pyIsdigit (s : String) : Bool :=
  !s.data.isEmpty && s.data.all Char.isDigit

/-- Numeric value of a digit string; models `int(text)` on a string that
passed `isdigit` (as in `got_floor`). -/
def digitsVal (cs : List Char) : Nat :=
  cs.foldl (fun n c => 10 * n + (c.toNat - 48)) 0

/-- Model of Python `int(s)` returning `none` where Python raises
`ValueError`: optional surrounding whitespace, optional sign, then one or
more digits (underscore grouping not modelled). -/
def pyInt? (s : String) : Option Int :=
  match stripChars s.data with
  | [] => none
  | '+' :: ds => if !ds.isEmpty && ds.all Char.isDigit then some (digitsVal ds : Int) else none
  | '-' :: ds => if !ds.isEmpty && ds.all Char.isDigit then some (-(digitsVal ds : Int)) else none
  | ds => if ds.all Char.isDigit then some (digitsVal ds : Int) else none

/-- Python `s.split(sep)` for a one-character separator (used for
`text.split("\n")` and `room.split(".")`): no run collapsing, empty
pieces kept, `[] ↦ [""]`. -/
def pySplitChar (sep : Char) : List Char → List (List Char)
  | [] => [[]]
  | c :: rest =>
    let r := pySplitChar sep rest
    if c = sep then [] :: r
    else
      match r with
      | h :: t => (c :: h) :: t
      | [] => [[c]]

/-! ### Data model -/

/-- A manifest entry: the Python dict built by `parse_delivery`, with the
`floor`/`room` keys optional (absent until resolved). -/
structure Entry where
  name : String
  surname : String
  order : String
  floor : Option Int := none
  room : Option String := none
deriving DecidableEq, Repr

/-- An employee record as written to `employees.json`:
`{"full_name": ..., "floor": ..., "room": ...}`.  Every write in the
source stores all three keys, so they are mandatory here; the
`emp.get("full_name", ...)` fallback in `handle_text` therefore always
finds the key. -/
structure EmployeeRecord where
  full_name : String
  floor : Int
  room : String
deriving DecidableEq, Repr

/-- The employee database (the JSON dict), as an association list with
unique keys. -/
abbrev DB := List (String × EmployeeRecord)

/-- Python `db[k]` / `k in db` combined: dict lookup. -/
def dbGet : DB → String → Option EmployeeRecord
  | [], _ => none
  | (k', v) :: rest, k => if k' = k then some v else dbGet rest k

/-- Python `db[k] = v`: dict overwrite (replace in place, or append a new
key at the end, as insertion-ordered dicts do). -/
def dbPut : DB → String → EmployeeRecord → DB
  | [], k, v => [(k, v)]
  | (k', v') :: rest, k, v =>
    if k' = k then (k, v) :: rest else (k', v') :: dbPut rest k v

/-- The per-requester session stored in `context.user_data["session"]`. -/
structure Session where
  deliveries : List Entry
  pending : List Entry
  current : Option Entry
deriving DecidableEq, Repr

/-- The fresh session built by `get_session` / `clear_session`. -/
def emptySession : Session :=
  { deliveries := [], pending := [], current := none }

/-! ### ManifestParser: the regex of `parse_delivery`

The pattern is
`^([а-яёА-ЯЁa-zA-Z][а-яёА-ЯЁa-zA-Z\s\-]+?)\s*[-–—]?\s*(\d{3,6})\s*$`
under `re.match`.  Group 1 (the name) is a letter followed by one or more
letters/whitespace/ASCII-hyphen, non-greedy, so the matcher below grows
the name one character at a time and stops at the first split whose
remainder matches the deterministic tail `\s*[-–—]?\s*(\d{3,6})\s*$`
(the tail classes are pairwise disjoint, so greedy consumption there is
complete). -/

/-- Letters of the name classes: `a-z`, `A-Z`, `а-я`, `А-Я`, `ё`, `Ё`. -/
def isNameLetter (c : Char) : Bool :=
  (0x61 ≤ c.toNat && c.toNat ≤ 0x7A) || (0x41 ≤ c.toNat && c.toNat ≤ 0x5A) ||
  (0x430 ≤ c.toNat && c.toNat ≤ 0x44F) || (0x410 ≤ c.toNat && c.toNat ≤ 0x42F) ||
  c.toNat = 0x451 || c.toNat = 0x401

/-- The separator class `[-–—]`: hyphen-minus, en dash, em dash. -/
def isSepChar (c : Char) : Bool :=
  c.toNat = 0x2D || c.toNat = 0x2013 || c.toNat = 0x2014

/-- The continuation class of group 1, `[а-яёА-ЯЁa-zA-Z\s\-]`
(note: ASCII hyphen only, no dashes). -/
def nameClassChar (c : Char) : Bool :=
  isNameLetter c || isSpaceChar c || c = '-'

/-- Match the tail `\s*[-–—]?\s*(\d{3,6})\s*$` against the rest of the
line, returning the digit group. -/
def restMatch (t : List Char) : Option (List Char) :=
  let t1 := t.dropWhile isSpaceChar
  let t2 := match t1 with
            | c :: cs => if isSepChar c then cs else t1
            | [] => t1
  let t3 := t2.dropWhile isSpaceChar
  let ds := t3.takeWhile Char.isDigit
  let rest := t3.dropWhile Char.isDigit
  if 3 ≤ ds.length && ds.length ≤ 6 && rest.all isSpaceChar then some ds else none

/-- Grow group 1 non-greedily: `acc` is the (reversed) name matched so
far, and each step consumes one more continuation-class character before
retrying the tail. -/
def findMatchGo (acc : List Char) : List Char → Option (List Char × List Char)
  | [] => none
  | c :: rest =>
    if nameClassChar c then
      match restMatch rest with
      | some ds => some ((c :: acc).reverse, ds)
      | none => findMatchGo (c :: acc) rest
    else none

/-- Result of `re.match(pattern, line)`: `(group 1, group 2)` if the line
matches. -/
def findMatch : List Char → Option (List Char × List Char)
  | [] => none
  | c :: rest => if isNameLetter c then findMatchGo [c] rest else none

/-- One iteration of the loop body of `parse_delivery`: strip the line,
skip it if blank or unmatched, otherwise build the entry dict. -/
def parseLineChars (cs0 : List Char) : Option Entry :=
  let cs := stripChars cs0
  if cs.isEmpty then none
  else
    match findMatch cs with
    | none => none
    | some (g1, g2) =>
      let rawName := stripChars g1
      let order := stripChars g2
      let surname := (rawName.takeWhile (fun c => !isSpaceChar c)).map Char.toLower
      some { name := String.mk rawName
             surname := String.mk surname
             order := String.mk order }

/-- `parse_delivery(text)`: strip the text, split on newlines, parse each
line, keep the matches in input order. -/
def parse_delivery (text : String) : List Entry :=
  (pySplitChar '\n' (stripChars text.data)).filterMap parseLineChars

/-! ### RouteBuilder: `optimize_route` -/

/-- The `try` body of the sort key: `int(room.split(".")[1])` on
`d.get("room", "99.99")`, with `none` where Python raises (no second
segment: `IndexError`; unparseable integer: `ValueError`). -/
def roomSegInt? (e : Entry) : Option Int :=
  match (pySplitChar '.' ((e.room.getD "99.99").data)).get? 1 with
  | none => none
  | some seg => pyInt? (String.mk seg)

/-- The sort key of `optimize_route`: `(d.get("floor", 99), room_num)`
where `room_num = int(room.split(".")[1])` with `99` on any exception. -/
def routeKey (e : Entry) : Int × Int :=
  (e.floor.getD 99, (roomSegInt? e).getD 99)

/-- Comparison of sort keys as Python compares tuples: lexicographic. -/
def keyLe (a b : Entry) : Prop :=
  (routeKey a).1 < (routeKey b).1 ∨
    ((routeKey a).1 = (routeKey b).1 ∧ (routeKey a).2 ≤ (routeKey b).2)

instance : DecidableRel keyLe := fun a b =>
  inferInstanceAs (Decidable (_ ∨ _ ∧ _))

instance : IsTotal Entry keyLe :=
  ⟨fun a b => by
    unfold keyLe
    rcases lt_trichotomy (routeKey a).1 (routeKey b).1 with h | h | h
    · exact Or.inl (Or.inl h)
    · rcases le_total (routeKey a).2 (routeKey b).2 with h2 | h2
      · exact Or.inl (Or.inr ⟨h, h2⟩)
      · exact Or.inr (Or.inr ⟨h.symm, h2⟩)
    · exact Or.inr (Or.inl h)⟩

instance : IsTrans Entry keyLe :=
  ⟨fun a b c hab hbc => by
    unfold keyLe at *
    rcases hab with h1 | ⟨e1, l1⟩ <;> rcases hbc with h2 | ⟨e2, l2⟩
    · exact Or.inl (h1.trans h2)
    · exact Or.inl (lt_of_lt_of_eq h1 e2)
    · exact Or.inl (lt_of_eq_of_lt e1 h2)
    · exact Or.inr ⟨e1.trans e2, l1.trans l2⟩⟩

/-- `optimize_route(deliveries) = sorted(deliveries, key=key)`.  Python's
`sorted` is a stable sort by the key tuple; a stable sort's output is
uniquely determined by the total preorder `keyLe`, and insertion sort is
stable for it, so this computes the same list. -/
def optimize_route (deliveries : List Entry) : List Entry :=
  List.insertionSort keyLe deliveries

/-- `build_route_keyboard`: the callback actions offered with a route,
one `done:<i>` per entry plus the final `done:clear` button (the display
labels on the buttons are presentation only and are omitted). -/
def build_route_keyboard (deliveries : List Entry) : List String :=
  (List.range deliveries.length).map (fun i => "done:" ++ toString i) ++ ["done:clear"]

/-! ### ResolutionSession: handlers -/

/-- Conversation states of the `ConversationHandler`: `ASK_FLOOR`,
`ASK_ROOM`, and `ConversationHandler.END`. -/
inductive ConvState where
  | askFloor
  | askRoom
  | ended
deriving DecidableEq, Repr

/-- Outcome of `handle_text`, naming the reply sent with each return
path. -/
inductive HandleResult where
  | parseFailed
  | routeReady (route : List Entry)
  | askFloor (item : Entry)
deriving DecidableEq, Repr

/-- One pass of the classification loop of `handle_text`: a directory
hit appends the stamped entry to `known` (first component), a miss
appends the raw entry to `unknown` (second component). -/
def classifyStep (db : DB) (acc : List Entry × List Entry) (item : Entry) :
    List Entry × List Entry :=
  match dbGet db item.surname with
  | some emp =>
    let stamped :=
      { item with name := emp.full_name, floor := some emp.floor, room := some emp.room }
    (acc.1 ++ [stamped], acc.2)
  | none => (acc.1, acc.2 ++ [item])

/-- The classification loop of `handle_text`, starting from empty
buckets. -/
def classify (db : DB) (parsed : List Entry) : List Entry × List Entry :=
  parsed.foldl (classifyStep db) ([], [])

/-- The stamping applied to a known entry at classification time. -/
def stamp (db : DB) (item : Entry) : Entry :=
  match dbGet db item.surname with
  | some emp =>
    { item with name := emp.full_name, floor := some emp.floor, room := some emp.room }
  | none => item

/-- `handle_text`: parse the (stripped) message; on zero entries reply
with the format error and end — note the session is not touched on this
path.  Otherwise reset the session's fields, classify against the
directory, and either produce the optimized route (no unknowns) or start
the interview on the first unknown. -/
def handle_text (session : Session) (db : DB) (text : String) : Session × HandleResult :=
  let parsed := parse_delivery (pyStrip text)
  if parsed.isEmpty then (session, .parseFailed)
  else
    let (known, unknown) := classify db parsed
    match unknown with
    | [] =>
      let route := optimize_route known
      ({ deliveries := route, pending := [], current := none }, .routeReady route)
    | u0 :: urest =>
      ({ deliveries := known, pending := urest, current := some u0 }, .askFloor u0)

/-- `got_floor`: a non-digit input re-prompts and stays in `ASK_FLOOR`
with nothing changed; a digit input stores the floor on
`session["current"]` and moves to `ASK_ROOM`.  When `current` is `None`
(as in the manual-add flow) the assignment
`session["current"]["floor"] = int(text)` raises `TypeError`, modelled
as `Except.error`. -/
def got_floor (session : Session) (text0 : String) : Except Unit (Session × ConvState) :=
  let text := pyStrip text0
  if pyIsdigit text then
    match session.current with
    | none => .error ()
    | some cur =>
      .ok ({ session with current := some { cur with floor := some (digitsVal text.data : Int) } },
           .askRoom)
  else .ok (session, .askFloor)

/-- `got_room`: store the room on `current`, write the directory record
under `current`'s surname (overwrite), save, append the resolved entry
to `deliveries`; then either pop the next pending item into `current`
and return to `ASK_FLOOR`, or optimize the route and end.  `current`
being `None` raises `TypeError` on `item["room"] = room`, and a missing
`"floor"` key raises `KeyError` when building the record; both are
`Except.error`. -/
def got_room (session : Session) (db : DB) (text : String) :
    Except Unit (Session × DB × ConvState) :=
  let room := pyStrip text
  match session.current with
  | none => .error ()
  | some item0 =>
    let item := { item0 with room := some room }
    match item.floor with
    | none => .error ()
    | some fl =>
      let db2 := dbPut db item.surname
        { full_name := pyCapitalize item.name, floor := fl, room := room }
      let resolved : Entry :=
        { name := pyCapitalize item.name, surname := item.surname,
          order := item.order, floor := some fl, room := some room }
      let dels := session.deliveries ++ [resolved]
      match session.pending with
      | next :: rest =>
        .ok ({ deliveries := dels, pending := rest, current := some next }, db2, .askFloor)
      | [] =>
        .ok ({ deliveries := optimize_route dels, pending := [], current := some item },
             db2, .ended)

/-- `cmd_add`: the `/add` entry point only sets the `manual_add` flag in
`user_data` and prompts for a surname; the session (in particular
`current`) is untouched, and the conversation moves to `ASK_FLOOR`. -/
def cmd_add (session : Session) : Session × ConvState :=
  (session, .askFloor)

/-- The state table of the `ConversationHandler` built in `main()`:
`ASK_FLOOR` is handled by `got_floor` and `ASK_ROOM` by `got_room`.
`got_floor_manual` is defined in the source but never registered, so no
state dispatches to it. -/
def dispatch (st : ConvState) (session : Session) (db : DB) (text : String) :
    Except Unit (Session × DB × ConvState) :=
  match st with
  | .askFloor => (got_floor session text).map (fun r => (r.1, db, r.2))
  | .askRoom => got_room session db text
  | .ended => .error ()

/-- The manual-add context flags kept in `user_data` by `cmd_add` /
`got_floor_manual`. -/
structure ManualCtx where
  manual_add : Bool := false
  manual_name : Option String := none
  manual_floor : Option Int := none
deriving DecidableEq, Repr

/-- `got_floor_manual` as written in the source: capture the typed
surname into `user_data["manual_name"]` on the first turn, then a digit
input into `user_data["manual_floor"]`.  `main()` never registers this
handler for any conversation state (see `dispatch`), and nothing ever
reads `manual_name`/`manual_floor` back, so this function is dead code
in the program. -/
def got_floor_manual (ctx : ManualCtx) (text0 : String) : ManualCtx × ConvState :=
  if ctx.manual_add && ctx.manual_name.isNone then
    ({ ctx with manual_name := some (pyStrip text0) }, .askFloor)
  else
    let text := pyStrip text0
    if pyIsdigit text then
      ({ ctx with manual_floor := some (digitsVal text.data : Int) }, .askRoom)
    else (ctx, .askFloor)

/-- `cb_done` on a `done:<idx>` callback (the `done:clear` branch, which
resets the session, is separate): an index at or beyond the route length
returns silently; otherwise `deliveries.pop(idx)` removes the entry —
Python counts a negative index from the end and raises `IndexError`
(`Except.error`) when even that is out of range.  An emptied route
resets the session. -/
def cb_done_mark (session : Session) (idx : Int) : Except Unit Session :=
  let dels := session.deliveries
  if (dels.length : Int) ≤ idx then .ok session
  else
    let i : Int := if idx < 0 then idx + dels.length else idx
    if i < 0 then .error ()
    else
      let dels2 := dels.eraseIdx i.toNat
      if dels2.isEmpty then .ok emptySession
      else .ok { session with deliveries := dels2 }

/-! ### Helper lemmas -/

instance exceptDecEq {ε α : Type} [DecidableEq ε] [DecidableEq α] :
    DecidableEq (Except ε α) := fun a b =>
  match a, b with
  | Except.error e1, Except.error e2 =>
    if h : e1 = e2 then isTrue (by rw [h]) else isFalse (fun hh => by cases hh; exact h rfl)
  | Except.error _, Except.ok _ => isFalse (fun hh => by cases hh)
  | Except.ok _, Except.error _ => isFalse (fun hh => by cases hh)
  | Except.ok a1, Except.ok a2 =>
    if h : a1 = a2 then isTrue (by rw [h]) else isFalse (fun hh => by cases hh; exact h rfl)

/-- Dict overwrite followed by lookup on the same key yields the new
record, whatever the prior contents. -/
theorem dbGet_dbPut_self (db : DB) (k : String) (v : EmployeeRecord) :
    dbGet (dbPut db k v) k = some v := by
  induction db with
  | nil => simp [dbPut, dbGet]
  | cons p rest ih =>
    obtain ⟨k', v'⟩ := p
    by_cases h : k' = k
    · simp [dbPut, dbGet, h]
    · simp [dbPut, dbGet, h, ih]

/-- Unfolding of the classification fold from arbitrary accumulators:
each bucket is the order-preserving filtration of the input, the known
one stamped. -/
theorem classify_foldl (db : DB) (l : List Entry) : ∀ k u : List Entry,
    l.foldl (classifyStep db) (k, u) =
      (k ++ (l.filter fun i => (dbGet db i.surname).isSome).map (stamp db),
       u ++ l.filter fun i => (dbGet db i.surname).isNone) := by
  induction l with
  | nil => intro k u; simp
  | cons a t ih =>
    intro k u
    rw [List.foldl_cons]
    cases h : dbGet db a.surname with
    | some emp =>
      rw [show classifyStep db (k, u) a =
            (k ++ [stamp db a], u) by simp [classifyStep, stamp, h]]
      rw [ih]
      simp [List.filter_cons, h]
    | none =>
      rw [show classifyStep db (k, u) a = (k, u ++ [a]) by simp [classifyStep, h]]
      rw [ih]
      simp [List.filter_cons, h]

/-- Entries with equal sort keys are related by `keyLe`. -/
theorem keyLe_of_routeKey_eq {a b : Entry} (h : routeKey a = routeKey b) : keyLe a b :=
  Or.inr ⟨congrArg Prod.fst h, le_of_eq (congrArg Prod.snd h)⟩

/-- Boolean test used to state stability: does the entry carry this sort
key? -/
def sameKey (k : Int × Int) (d : Entry) : Bool :=
  decide (routeKey d = k)

/-- Inserting an entry with a different key does not disturb the
subsequence of a given key. -/
theorem filter_orderedInsert_of_ne (k : Int × Int) (a : Entry) (h : routeKey a ≠ k) :
    ∀ l : List Entry,
      (List.orderedInsert keyLe a l).filter (sameKey k) = l.filter (sameKey k) := by
  intro l
  induction l with
  | nil => simp [List.orderedInsert, sameKey, h]
  | cons b t ih =>
    by_cases hab : keyLe a b
    · rw [List.orderedInsert, if_pos hab]
      simp [List.filter_cons, sameKey, h]
    · rw [List.orderedInsert, if_neg hab]
      rw [List.filter_cons, List.filter_cons, ih]

/-- Inserting an entry of the observed key puts it exactly at the front
of that key's subsequence. -/
theorem filter_orderedInsert_of_eq (k : Int × Int) (a : Entry) (h : routeKey a = k) :
    ∀ l : List Entry,
      (List.orderedInsert keyLe a l).filter (sameKey k) = a :: l.filter (sameKey k) := by
  intro l
  induction l with
  | nil => simp [List.orderedInsert, sameKey, h]
  | cons b t ih =>
    by_cases hab : keyLe a b
    · rw [List.orderedInsert, if_pos hab]
      simp [List.filter_cons, sameKey, h]
    · have hbk : routeKey b ≠ k := by
        intro hbk
        exact hab (keyLe_of_routeKey_eq (h.trans hbk.symm))
      rw [List.orderedInsert, if_neg hab]
      rw [List.filter_cons, ih]
      simp [sameKey, hbk]

/-- Insertion sort preserves each key's subsequence (stability). -/
theorem filter_insertionSort (k : Int × Int) :
    ∀ l : List Entry,
      (List.insertionSort keyLe l).filter (sameKey k) = l.filter (sameKey k) := by
  intro l
  induction l with
  | nil => rfl
  | cons a t ih =>
    rw [List.insertionSort]
    by_cases h : routeKey a = k
    · rw [filter_orderedInsert_of_eq k a h, ih, List.filter_cons]
      simp [sameKey, h]
    · rw [filter_orderedInsert_of_ne k a h, ih, List.filter_cons]
      simp [sameKey, h]

/-! ### Claim theorems -/

/-- C7: `optimize_route` is stable — for every input list, the entries
sharing any given sort key `(floor, parsed room number)` form the same
subsequence (same elements, same relative order) before and after
sorting. -/
theorem optimize_route_stable (l : List Entry) (k : Int × Int) :
    (optimize_route l).filter (sameKey k) = l.filter (sameKey k) :=
  filter_insertionSort k l

/-- C8: `optimize_route` is idempotent. -/
theorem optimize_route_idempotent (l : List Entry) :
    optimize_route (optimize_route l) = optimize_route l :=
  List.Sorted.insertionSort_eq (List.sorted_insertionSort keyLe l)

/-- C9: classification partitions the parsed entries into the known
bucket — the directory hits in their original relative order, each
stamped with the directory's floor and room (and full name) at
classification time — and the unknown bucket, the misses in their
original relative order. -/
theorem classify_partitions (db : DB) (parsed : List Entry) :
    classify db parsed =
      ((parsed.filter fun i => (dbGet db i.surname).isSome).map (stamp db),
       parsed.filter fun i => (dbGet db i.surname).isNone) := by
  simpa [classify] using classify_foldl db parsed [] []

/-- C4 counterexample: an entry with a known floor of 100 sorts after an
entry with an unknown floor, because the unknown floor is keyed by the
sentinel 99, not by infinity — refuting "every entry whose floor is
unknown sorts after all floor-bearing entries". -/
theorem unknown_floor_not_last_cex :
    optimize_route
        [{ name := "A", surname := "a", order := "111",
           floor := some 100, room := some "100.1" },
         { name := "B", surname := "b", order := "222" }] =
      [{ name := "B", surname := "b", order := "222" },
       { name := "A", surname := "a", order := "111",
         floor := some 100, room := some "100.1" }] ∧
    ({ name := "B", surname := "b", order := "222" } : Entry).floor = none ∧
    ({ name := "A", surname := "a", order := "111",
       floor := some 100, room := some "100.1" } : Entry).floor = some 100 := by
  decide

/-- C4 amended: `optimize_route` sorts ascending by the key (floor,
integer parsed from the room's segment after its first dot), where an
unknown floor and an unparseable room number are keyed by the sentinel
99 — so an unknown-floor entry sorts after every entry whose floor is
below 99 (not after all floor-bearing entries), and within a floor tier
an entry with no parseable room segment sorts after every entry whose
parsed room number is below 99. -/
theorem optimize_route_sorts_by_key (l : List Entry) :
    (optimize_route l).Perm l ∧
    List.Sorted keyLe (optimize_route l) ∧
    (∀ i j : Fin (optimize_route l).length, (i : Nat) < j →
      ((optimize_route l).get i).floor = none →
      ∀ f : Int, ((optimize_route l).get j).floor = some f → ¬f < 99) ∧
    (∀ i j : Fin (optimize_route l).length, (i : Nat) < j →
      (routeKey ((optimize_route l).get i)).1 = (routeKey ((optimize_route l).get j)).1 →
      roomSegInt? ((optimize_route l).get i) = none →
      ∀ rn : Int, roomSegInt? ((optimize_route l).get j) = some rn → ¬rn < 99) := by
  have hsorted : List.Sorted keyLe (optimize_route l) :=
    List.sorted_insertionSort keyLe l
  have hget := List.pairwise_iff_get.mp hsorted
  refine ⟨List.perm_insertionSort keyLe l, hsorted, ?_, ?_⟩
  · intro i j hij hfi f hfj hf
    have hle := hget i j hij
    rw [keyLe] at hle
    have h1 : (routeKey ((optimize_route l).get i)).1 = 99 := by
      unfold routeKey; rw [hfi]; rfl
    have h2 : (routeKey ((optimize_route l).get j)).1 = f := by
      unfold routeKey; rw [hfj]; rfl
    rcases hle with hlt | ⟨heq, _⟩
    · rw [h1, h2] at hlt; exact absurd hf (not_lt_of_gt hlt)
    · have h99 : (99 : Int) = f := by rw [← h1, heq, h2]
      rw [← h99] at hf
      exact lt_irrefl _ hf
  · intro i j hij hfl hri rn hrj hr
    have hle := hget i j hij
    rw [keyLe] at hle
    have h1 : (routeKey ((optimize_route l).get i)).2 = 99 := by
      unfold routeKey; rw [hri]; rfl
    have h2 : (routeKey ((optimize_route l).get j)).2 = rn := by
      unfold routeKey; rw [hrj]; rfl
    rcases hle with hlt | ⟨_, hle2⟩
    · rw [hfl] at hlt; exact lt_irrefl _ hlt
    · rw [h1, h2] at hle2; exact absurd (lt_of_le_of_lt hle2 hr) (lt_irrefl 99)

/-- C2 counterexample: a manifest in which no line matches, sent while
the session holds deliveries, leaves the session exactly as it was —
refuting "the requester's session is reset to the empty COLLECTING state
(deliveries, pending and current all cleared)". -/
theorem parse_failure_keeps_session_cex :
    handle_text
        { deliveries := [{ name := "Old", surname := "old", order := "123",
                           floor := some 1, room := some "1.1" }],
          pending := [], current := none } [] "???" =
      ({ deliveries := [{ name := "Old", surname := "old", order := "123",
                          floor := some 1, room := some "1.1" }],
         pending := [], current := none }, HandleResult.parseFailed) ∧
    ({ deliveries := [{ name := "Old", surname := "old", order := "123",
                        floor := some 1, room := some "1.1" }],
       pending := [], current := none } : Session) ≠ emptySession := by
  decide

/-- C2 amended: when no line of the manifest parses, the handler emits
the unrecognized-format error, ends the conversation (back to
collecting) and persists nothing, but it leaves the session's
deliveries, pending and current exactly as they were — it does not clear
them. -/
theorem parse_failure_leaves_session (s : Session) (db : DB) (text : String)
    (h : parse_delivery (pyStrip text) = []) :
    handle_text s db text = (s, HandleResult.parseFailed) := by
  simp [handle_text, h]

/-- C2 witness: the amended theorem at a concrete unparseable manifest. -/
theorem parse_failure_leaves_session_witness :
    parse_delivery (pyStrip "???") = [] ∧
    handle_text emptySession [] "???" = (emptySession, HandleResult.parseFailed) :=
  ⟨by decide, parse_failure_leaves_session emptySession [] "???" (by decide)⟩

/-- C3 counterexample: marking index -1 on a two-entry route removes the
last entry (Python's `list.pop` counts negative indices from the end) —
refuting "every negative index is a silent no-op". -/
theorem negative_index_not_noop_cex :
    cb_done_mark
        { deliveries := [{ name := "A", surname := "a", order := "111",
                           floor := some 1, room := some "1.1" },
                         { name := "B", surname := "b", order := "222",
                           floor := some 2, room := some "2.2" }],
          pending := [], current := none } (-1) =
      Except.ok
        { deliveries := [{ name := "A", surname := "a", order := "111",
                           floor := some 1, room := some "1.1" }],
          pending := [], current := none } ∧
    ([{ name := "A", surname := "a", order := "111",
        floor := some 1, room := some "1.1" }] : List Entry) ≠
      [{ name := "A", surname := "a", order := "111",
         floor := some 1, room := some "1.1" },
       { name := "B", surname := "b", order := "222",
         floor := some 2, room := some "2.2" }] :=
  ⟨rfl, by decide⟩

/-- C3 amended: a mark-delivered index at or beyond the route length is
a silent no-op (session, hence route and action list, unchanged);
negative indices instead follow Python `pop` semantics — `-n ≤ idx < 0`
removes the entry `n + idx` and `idx < -n` raises `IndexError`. -/
theorem mark_delivered_ge_len_noop (s : Session) (idx : Int)
    (h : (s.deliveries.length : Int) ≤ idx) :
    cb_done_mark s idx = Except.ok s := by
  simp [cb_done_mark, h]

/-- C3 witness: the amended theorem at a concrete out-of-range index. -/
theorem mark_delivered_ge_len_noop_witness :
    ((({ deliveries := [{ name := "A", surname := "a", order := "111",
                          floor := some 1, room := some "1.1" }],
         pending := [], current := none } : Session).deliveries.length : Int) ≤ 5) ∧
    cb_done_mark
        { deliveries := [{ name := "A", surname := "a", order := "111",
                           floor := some 1, room := some "1.1" }],
          pending := [], current := none } 5 =
      Except.ok
        { deliveries := [{ name := "A", surname := "a", order := "111",
                           floor := some 1, room := some "1.1" }],
          pending := [], current := none } :=
  ⟨by decide, mark_delivered_ge_len_noop _ 5 (by decide)⟩

/-- C6 counterexample: a line holding only a 3-6 digit order code — bare
or preceded by a dash separator — is not parsed, refuting "the name part
is optional". -/
theorem code_only_line_rejected_cex :
    parse_delivery "0835" = [] ∧ parse_delivery "- 0835" = [] := by
  decide

/-- C6 amended: the name part of the grammar is mandatory (a name letter
followed by at least one more name-class character); a line containing
no name letter at all — in particular one consisting only of an order
code, with or without a separator — never parses into an entry. -/
theorem name_required_for_parse (line : List Char)
    (h : ∀ c ∈ line, isNameLetter c = false) :
    parseLineChars line = none := by
  have hsub : ∀ c ∈ stripChars line, c ∈ line := by
    intro c hc
    unfold stripChars at hc
    rw [List.mem_reverse] at hc
    have h1 := (List.dropWhile_sublist _).subset hc
    rw [List.mem_reverse] at h1
    exact (List.dropWhile_sublist _).subset h1
  unfold parseLineChars
  cases hcs : stripChars line with
  | nil => rfl
  | cons c rest =>
    have hc : isNameLetter c = false :=
      h c (hsub c (hcs ▸ List.mem_cons_self c rest))
    simp [findMatch, hc]

/-- C6 witness: the amended theorem at the bare order-code line. -/
theorem name_required_for_parse_witness :
    (∀ c ∈ ("0835".data), isNameLetter c = false) ∧
    parseLineChars ("0835".data) = none :=
  ⟨by decide, name_required_for_parse ("0835".data) (by decide)⟩

/-- C10: when the manifest parses to at least one entry, `handle_text`
overwrites the session's deliveries, pending and current before
classifying, so its result is the same whatever session state — in
particular an in-flight interview's — was there before. -/
theorem new_manifest_discards_session (s1 s2 : Session) (db : DB) (text : String)
    (h : parse_delivery (pyStrip text) ≠ []) :
    handle_text s1 db text = handle_text s2 db text := by
  cases hp : parse_delivery (pyStrip text) with
  | nil => exact absurd hp h
  | cons a t => simp [handle_text, hp]

/-- C10 witness: the theorem at a parseable manifest and a session
mid-interview. -/
theorem new_manifest_discards_session_witness :
    parse_delivery (pyStrip "ivanov 123") ≠ [] ∧
    handle_text
        { deliveries := [{ name := "Old", surname := "old", order := "999",
                           floor := some 9, room := some "9.9" }],
          pending := [{ name := "P", surname := "p", order := "888" }],
          current := some { name := "C", surname := "c", order := "777" } }
        [] "ivanov 123" =
      handle_text emptySession [] "ivanov 123" :=
  ⟨by decide, new_manifest_discards_session _ emptySession [] "ivanov 123" (by decide)⟩

/-- The floor stored by `got_floor`: `int(text)` of the stripped digit
input. -/
def interviewFloor (ftext : String) : Int :=
  (digitsVal (pyStrip ftext).data : Nat)

/-- The record `got_room` writes into the directory after an interview
with floor input `ftext` and room input `rtext`. -/
def interviewRec (item : Entry) (ftext rtext : String) : EmployeeRecord :=
  { full_name := pyCapitalize item.name, floor := interviewFloor ftext, room := pyStrip rtext }

/-- The fully resolved entry `got_room` appends to the session's
deliveries. -/
def resolvedEntry (item : Entry) (ftext rtext : String) : Entry :=
  { name := pyCapitalize item.name, surname := item.surname, order := item.order,
    floor := some (interviewFloor ftext), room := some (pyStrip rtext) }

/-- C5: one full interview for the current (unknown-surname) entry — a
digit floor input, then a room input — writes the directory record
`{full_name := capitalized name, floor, room}` under the entry's surname
with overwrite semantics, appends the fully resolved entry to the
session's deliveries (the list is additionally re-sorted when the
interview queue empties, whence the permutation), and makes every entry
with that surname classify as known from then on, with no further
interview. -/
theorem interview_resolves_surname (s : Session) (db : DB) (item : Entry)
    (ftext rtext : String)
    (hcur : s.current = some item)
    (hunk : dbGet db item.surname = none)
    (hf : pyIsdigit (pyStrip ftext) = true) :
    ∃ s2 st,
      got_floor s ftext =
        Except.ok ({ s with current := some { item with floor := some (interviewFloor ftext) } },
                   ConvState.askRoom) ∧
      got_room { s with current := some { item with floor := some (interviewFloor ftext) } }
          db rtext =
        Except.ok (s2, dbPut db item.surname (interviewRec item ftext rtext), st) ∧
      dbGet (dbPut db item.surname (interviewRec item ftext rtext)) item.surname =
        some (interviewRec item ftext rtext) ∧
      (∀ e : Entry, e.surname = item.surname →
        (classify (dbPut db item.surname (interviewRec item ftext rtext)) [e]).2 = []) ∧
      s2.deliveries.Perm (s.deliveries ++ [resolvedEntry item ftext rtext]) := by
  have hgf : got_floor s ftext =
      Except.ok ({ s with current := some { item with floor := some (interviewFloor ftext) } },
                 ConvState.askRoom) := by
    simp [got_floor, hf, hcur, interviewFloor]
  cases hp : s.pending with
  | cons nxt rest =>
    rw [hp] at hgf
    refine ⟨{ deliveries := s.deliveries ++ [resolvedEntry item ftext rtext],
              pending := rest, current := some nxt }, ConvState.askFloor,
            hgf, ?_, dbGet_dbPut_self db item.surname _, ?_, ?_⟩
    · simp [got_room, hp, interviewRec, resolvedEntry, interviewFloor]
    · intro e he
      simp [classify, classifyStep, he, dbGet_dbPut_self]
    · exact List.Perm.refl _
  | nil =>
    rw [hp] at hgf
    refine ⟨{ deliveries := optimize_route (s.deliveries ++ [resolvedEntry item ftext rtext]),
              pending := [],
              current := some { item with floor := some (interviewFloor ftext),
                                          room := some (pyStrip rtext) } }, ConvState.ended,
            hgf, ?_, dbGet_dbPut_self db item.surname _, ?_, ?_⟩
    · simp [got_room, hp, interviewRec, resolvedEntry, interviewFloor]
    · intro e he
      simp [classify, classifyStep, he, dbGet_dbPut_self]
    · exact List.perm_insertionSort keyLe _

/-- Concrete manifest entry for the C5 witness. -/
def wItem : Entry :=
  { name := "sidorov", surname := "sidorov", order := "0835" }

/-- Concrete session for the C5 witness: interview in progress on
`wItem`. -/
def wSession : Session :=
  { deliveries := [], pending := [], current := some wItem }

/-- C5 witness: the theorem at a concrete session, directory and
interview inputs. -/
theorem interview_resolves_surname_witness :
    (wSession.current = some wItem ∧ dbGet [] wItem.surname = none ∧
      pyIsdigit (pyStrip "3") = true) ∧
    (∃ s2 st,
      got_floor wSession "3" =
        Except.ok ({ wSession with
                     current := some { wItem with floor := some (interviewFloor "3") } },
                   ConvState.askRoom) ∧
      got_room { wSession with
                 current := some { wItem with floor := some (interviewFloor "3") } }
          [] " 3.14 " =
        Except.ok (s2, dbPut [] wItem.surname (interviewRec wItem "3" " 3.14 "), st) ∧
      dbGet (dbPut [] wItem.surname (interviewRec wItem "3" " 3.14 ")) wItem.surname =
        some (interviewRec wItem "3" " 3.14 ") ∧
      (∀ e : Entry, e.surname = wItem.surname →
        (classify (dbPut [] wItem.surname (interviewRec wItem "3" " 3.14 ")) [e]).2 = []) ∧
      s2.deliveries.Perm (wSession.deliveries ++ [resolvedEntry wItem "3" " 3.14 "])) :=
  ⟨⟨rfl, rfl, by decide⟩,
   interview_resolves_surname wSession [] wItem "3" " 3.14 " rfl rfl (by decide)⟩

/-- C1 (code bug): under the conversation wiring of `main()`, `/add`
does not seed `current` from the typed surname and can never write a
directory entry: the `ASK_FLOOR` state is handled by `got_floor` (not
`got_floor_manual`, which is never registered), so the typed surname is
answered with the number re-prompt and nothing is captured, a numeric
reply then crashes with `TypeError` because the session's `current` is
`None`, and the `ASK_ROOM` handler crashes the same way — all with the
directory left untouched. -/
theorem manual_add_flow_broken :
    cmd_add emptySession = (emptySession, ConvState.askFloor) ∧
    dispatch ConvState.askFloor emptySession [] "ivanova" =
      Except.ok (emptySession, ([] : DB), ConvState.askFloor) ∧
    dispatch ConvState.askFloor emptySession [] "7" = Except.error () ∧
    dispatch ConvState.askRoom emptySession [] "3.14" = Except.error () := by
  refine ⟨rfl, ?_, rfl, rfl⟩
  decide

end DeliveryBot
